import Mathlib

/-!
Shallow embedding of the stock-price-updater pipeline
(`src/scripts/code.js` of glycoaddict/stockpriceupdater).

The script is a Google Apps Script batch job:
* `updateMasterList` (code.js lines 12-81) reads the portfolio rows from a
  spreadsheet, writes a run timestamp, looks up each row's price, batch-writes
  the `new_price` column, and conditionally writes the `buffered` column.
* `URLFromExchange` (lines 85-109) maps an exchange code to a URL suffix and
  appends a random cache-busting query parameter.
* `lookupQuote` (lines 112-152) fetches a URL with up to 3 attempts and
  extracts a price from the page body with two regexes.
* `getTimeNow` (lines 156-161) produces the timestamp string.

JavaScript numbers are modelled as `JSNum` (a rational or NaN); page bodies
and matched text as `List Char`; the network as an oracle giving the response
of each attempt; the spreadsheet as a `Sheet` record of the column slices the
script touches (rows 2..lastrow of each column).
-/

set_option autoImplicit false

namespace StockPriceUpdater

/-- JavaScript number as the pipeline can produce it: an exact rational value
or NaN (from `parseFloat` on a string with no numeric prefix). -/
inductive JSNum where
  | nan
  | num (v : ℚ)
  deriving DecidableEq, Repr

/-- Response of one `UrlFetchApp.fetch` attempt: a transport-level exception,
or an HTTP response with a status code and a body. -/
inductive FetchResp where
  | throws
  | page (status : Nat) (body : List Char)
  deriving DecidableEq, Repr

/-- Outcome of `lookupQuote`: either a returned JS number (a real price, the
`-1` sentinel, or NaN), or an uncaught exception that aborts the whole run
(the regex dereferences at code.js lines 144 and 148 sit outside the
try/catch, so a null match throws a TypeError). -/
inductive LookupOutcome where
  | crash
  | val (x : JSNum)
  deriving DecidableEq, Repr

/-- Boolean prefix test on character lists (used to model JS regex literal
matching). -/
def leadsWith : List Char → List Char → Bool
  | [], _ => true
  | _ :: _, [] => false
  | p :: ps, c :: cs => p = c && leadsWith ps cs

/-- Digits of a decimal numeral to a natural number. -/
def digitsToNat (ds : List Char) : Nat :=
  ds.foldl (fun acc d => 10 * acc + (d.toNat - 48)) 0

/-- Model of JS `parseFloat` restricted to the character set the extraction
regex can produce (digits, `.`, `,`): the longest prefix of the form
`digits [. digits]` is parsed; if that prefix is empty the result is NaN
(JS `parseFloat('')` and `parseFloat(',...')` are NaN). Sign and exponent
forms cannot occur here because regex 2 (code.js line 148) only matches
digits, periods and commas between the angle brackets. -/
def parseFloat (s : List Char) : JSNum :=
  let ip := s.takeWhile Char.isDigit
  let rest := s.drop ip.length
  match rest with
  | '.' :: rest2 =>
    let fp := rest2.takeWhile Char.isDigit
    if ip.isEmpty && fp.isEmpty then .nan
    else .num (mkRat (Int.ofNat (digitsToNat ip * 10 ^ fp.length + digitsToNat fp))
      (10 ^ fp.length))
  | _ => if ip.isEmpty then .nan else .num (mkRat (Int.ofNat (digitsToNat ip)) 1)

/-- Literal opening marker of regex 1, `<span class="Trsdu` (code.js
line 144). -/
def markerOpen : List Char := "<span class=\"Trsdu".toList

/-- Literal closing delimiter of regex 1, `</span>` (code.js line 144). -/
def markerClose : List Char := "</span>".toList

/-- Lazy part of regex 1: from the end of the opening marker, the shortest
stretch of non-newline characters up to `</span>` (JS `.` does not match line
terminators, and `.*?` is lazy, so the first `</span>` on the same line
wins). Returns the stretch, or none if no `</span>` occurs before a line
terminator or the end of input. -/
def findClose : List Char → Option (List Char)
  | [] => none
  | c :: rest =>
    if leadsWith markerClose (c :: rest) then some []
    else if c = '\n' ∨ c = '\r' then none
    else (findClose rest).map (c :: ·)

/-- Full match of regex 1, `/(<span class="Trsdu)(.*?)(<\/span>)/.exec(html)`
(code.js line 144): the leftmost occurrence of the opening marker that is
followed on the same line by `</span>`; the result is `match[0]`, marker and
closing tag included. -/
def regexStage1 : List Char → Option (List Char)
  | [] => none
  | c :: rest =>
    if leadsWith markerOpen (c :: rest) then
      match findClose ((c :: rest).drop markerOpen.length) with
      | some mid => some (markerOpen ++ mid ++ markerClose)
      | none => regexStage1 rest
    else regexStage1 rest

/-- Character class of regex 2, `[\d\.\,]`. -/
def isNumChar (c : Char) : Bool :=
  c.isDigit || c = '.' || c = ','

/-- Full match of regex 2, `/(\>)([\d\.\,]*)(\<)/.exec(s)[0]` (code.js
line 148): the leftmost `>` whose following maximal run of digits, periods
and commas is immediately followed by `<`; the result includes both angle
brackets. -/
def regexStage2 : List Char → Option (List Char)
  | [] => none
  | c :: rest =>
    if c = '>' then
      let run := rest.takeWhile isNumChar
      match rest.drop run.length with
      | '<' :: _ => some ('>' :: (run ++ ['<']))
      | _ => regexStage2 rest
    else regexStage2 rest

/-- Model of JS `String.replace` with a one-character string pattern and empty
replacement: removes the FIRST occurrence only (code.js line 150 chains
`.replace('<','').replace('>','').replace(',','')`). -/
def removeFirst (c : Char) : List Char → List Char
  | [] => []
  | d :: rest => if d = c then rest else d :: removeFirst c rest

/-- Extraction stage of `lookupQuote` (code.js lines 141-151): regex 1 on the
page body, regex 2 on `initMatch[0]`, then
`parseFloat(finalMatch.replace('<','').replace('>','').replace(',',''))`.
When either regex returns null, the immediate `[0]` dereference throws a
TypeError outside the try/catch: modelled as `crash`. -/
def extract (body : List Char) : LookupOutcome :=
  match regexStage1 body with
  | none => .crash
  | some initMatch =>
    match regexStage2 initMatch with
    | none => .crash
    | some finalMatch =>
      .val (parseFloat (removeFirst ',' (removeFirst '>' (removeFirst '<' finalMatch))))

/-- Result of the retry loop of `lookupQuote` (code.js lines 119-131): either
a transport exception (caught by the surrounding try/catch) or the final
`page` variable of the loop. -/
inductive FetchPhase where
  | exn
  | done (status : Nat) (body : List Char)
  deriving DecidableEq, Repr

/-- Retry loop `for (var n=0;n<3;n++)` of `lookupQuote` (code.js lines
121-127), unrolled: each attempt fetches; a status-200 page breaks out; the
loop otherwise runs all 3 attempts and leaves `page` holding the last
response. `oracle n` is the network's response to the n-th attempt for this
URL. Returns the number of attempts performed and the loop's outcome. -/
def fetchPhase (oracle : Nat → FetchResp) : Nat × FetchPhase :=
  match oracle 0 with
  | .throws => (1, .exn)
  | .page s0 b0 =>
    if s0 = 200 then (1, .done s0 b0)
    else
      match oracle 1 with
      | .throws => (2, .exn)
      | .page s1 b1 =>
        if s1 = 200 then (2, .done s1 b1)
        else
          match oracle 2 with
          | .throws => (3, .exn)
          | .page s2 b2 => (3, .done s2 b2)

/-- Whether the try/catch of `lookupQuote` ends in the catch branch (code.js
lines 128-136): a transport exception, or the final page's status is not 200
(then the code throws "Page failed to load even after 3 attempts."). -/
def fetchFailed (oracle : Nat → FetchResp) : Bool :=
  match (fetchPhase oracle).2 with
  | .exn => true
  | .done s _ => s ≠ 200

/-- `lookupQuote` (code.js lines 112-152): run the retry loop; the catch
branch returns -1; otherwise extract a price from the page body.
The `symbol` argument only feeds log messages and is omitted; the network's
responses to this row's URL are the oracle. -/
def lookupQuote (oracle : Nat → FetchResp) : LookupOutcome :=
  match (fetchPhase oracle).2 with
  | .exn => .val (.num (-1))
  | .done s body => if s ≠ 200 then .val (.num (-1)) else extract body

/-- URL-suffix switch of `URLFromExchange` (code.js lines 86-104): `suffix`
starts as the empty string and the switch has no default case, so an unknown
exchange code keeps the empty (USA) suffix. -/
def exchSuffix (exchange : String) : String :=
  if exchange = "USA" then ""
  else if exchange = "SGX" then ".SI"
  else if exchange = "HKEX" then ".HK"
  else if exchange = "XSSC" then ".SS"
  else ""

/-- Cache-busting query value `Math.floor(Math.random()*1000)` (code.js
line 107); `r` is the value `Math.random()` produced, a real in [0,1)
modelled as a rational. -/
def cacheBuster (r : ℚ) : ℤ :=
  ⌊r * 1000⌋

/-- `URLFromExchange` (code.js lines 85-109): concatenates the base URL, the
symbol, the exchange suffix, and the random query parameter. -/
def URLFromExchange (symbol exchange : String) (r : ℚ) : String :=
  "https://finance.yahoo.com/quote/" ++ symbol ++ exchSuffix exchange
    ++ "?p=" ++ toString (cacheBuster r)

/-- Guard `prices[k] != -1` of code.js line 75. `prices[k]` is the one-element
array `[quote]`; JS abstract equality coerces it via its string join and then
to a number, so the test is false exactly when the quote is the number -1;
NaN stringifies to "NaN", which converts back to NaN, and NaN != -1 is true. -/
def looseNeqNeg1 (p : JSNum) : Bool :=
  match p with
  | .nan => true
  | .num v => v ≠ -1

/-- Value written by `setValue(parseFloat(prices[k]))` at code.js line 76:
`parseFloat` of the one-element array's string join. A finite JS number
round-trips through its string form unchanged, and `parseFloat("NaN")` is
NaN, so the write is the identity on `JSNum`. -/
def reparseCell (p : JSNum) : JSNum :=
  match p with
  | .nan => .nan
  | .num v => .num v

/-- Ledger side effects and network round trips of one run, in program
order. -/
inductive Ev where
  | readLastRow
  | writeTimestamp (t : String)
  | readRows
  | netFetch (row attempt : Nat)
  | writeNewPrice (vals : List JSNum)
  | writeBuffered (row : Nat) (v : JSNum)
  deriving DecidableEq, Repr

/-- Network round trips of one row's `lookupQuote` call: one `netFetch` event
per attempt the retry loop performs. -/
def rowFetchEvs (i : Nat) (oracleRow : Nat → FetchResp) : List Ev :=
  (List.range (fetchPhase oracleRow).1).map (Ev.netFetch i)

/-- Loop of code.js lines 49-64 over rows `i, i+1, ..., i+n-1`: fetch events
accumulate in order; each row's quote goes to `prices[i]`. A crashing lookup
(uncaught TypeError, see `extract`) aborts the loop and the run: no prices
list is produced (`none`), and the events stop at the crashing row.
`oracle i n` is the network's response to row i's n-th fetch attempt (the
row's URL from `URLFromExchange` is what actually keys the network; the
oracle abstracts the network's behaviour per row and attempt). -/
def loopTrace (oracle : Nat → Nat → FetchResp) (i : Nat) :
    Nat → List Ev × Option (List JSNum)
  | 0 => ([], some [])
  | n + 1 =>
    let evs := rowFetchEvs i (oracle i)
    match lookupQuote (oracle i) with
    | .crash => (evs, none)
    | .val x =>
      let p := loopTrace oracle (i + 1) n
      (evs ++ p.1, p.2.map (x :: ·))

/-- The `prices` array the loop produces, or `none` when a lookup crashed. -/
def computePrices (oracle : Nat → Nat → FetchResp) (n : Nat) : Option (List JSNum) :=
  (loopTrace oracle 0 n).2

/-- Conditional buffered-column update, code.js lines 74-78: for each k,
if `prices[k] != -1` the cell at row 2+k of column 7 is overwritten with
`parseFloat(prices[k])`, otherwise it keeps its old value. -/
def applyBuffered : List JSNum → List JSNum → List JSNum
  | old, [] => old
  | [], _ :: _ => []
  | o :: os, p :: ps =>
    (if looseNeqNeg1 p then reparseCell p else o) :: applyBuffered os ps

/-- Buffered-column write events of code.js lines 74-78, row index first. -/
def bufferedWriteEvs (k : Nat) : List JSNum → List Ev
  | [] => []
  | p :: ps =>
    (if looseNeqNeg1 p then [Ev.writeBuffered k (reparseCell p)] else [])
      ++ bufferedWriteEvs (k + 1) ps

/-- Spreadsheet state the script touches: the row-2..lastrow slices of the
symbol column (col 1), exchange column (col 4), `new_price` column (col 6),
buffered column (col 7), and the timestamp cell (2,11). -/
structure Sheet where
  symbols : List String
  exchange : List String
  new_price : List JSNum
  buffered : List JSNum
  timestamp : String
  deriving DecidableEq, Repr

/-- `updateMasterList` (code.js lines 12-81), final sheet state: write the
timestamp (line 25), run the lookup loop (lines 49-64), batch-write the
`new_price` column with `prices` (line 71), then conditionally write the
buffered column (lines 74-78). A crashing lookup aborts the run before any
price-column write: the result is `none` (the timestamp write that already
happened is visible in `runTrace`). -/
def updateMasterList (now : String) (oracle : Nat → Nat → FetchResp) (s : Sheet) :
    Option Sheet :=
  match computePrices oracle s.symbols.length with
  | none => none
  | some prices =>
    some { s with
      timestamp := now
      new_price := prices
      buffered := applyBuffered s.buffered prices }

/-- Event trace of one `updateMasterList` run, in program order: read the
lastrow cell (line 23), write the timestamp (line 25), read the symbol and
exchange ranges (lines 30-31), the per-row network fetches (lines 49-64),
then — only if no lookup crashed — the batch `new_price` write (line 71) and
the conditional buffered writes (lines 74-78). -/
def runTrace (now : String) (oracle : Nat → Nat → FetchResp) (s : Sheet) : List Ev :=
  Ev.readLastRow :: Ev.writeTimestamp now :: Ev.readRows ::
    (loopTrace oracle 0 s.symbols.length).1
    ++ (match (loopTrace oracle 0 s.symbols.length).2 with
        | none => []
        | some prices => Ev.writeNewPrice prices :: bufferedWriteEvs 0 prices)

/-! Concrete fixtures: closed inputs used to instantiate the theorems -/

/-- Network oracle answering every attempt with HTTP 500. -/
def failOracle : Nat → Nat → FetchResp := fun _ _ => .page 500 []

/-- Network oracle raising a transport exception on every attempt. -/
def throwOracle : Nat → Nat → FetchResp := fun _ _ => .throws

/-- Page body carrying the price 28.200 in the expected wrapping markup. -/
def page28Body : List Char := "<html><span class=\"Trsdu abc\">28.200</span></html>".toList

/-- Network oracle answering every attempt with HTTP 200 and `page28Body`. -/
def succOracle : Nat → Nat → FetchResp := fun _ _ => .page 200 page28Body

/-- One-row portfolio sheet before a run. -/
def startSheet : Sheet :=
  { symbols := ["ES3"]
    exchange := ["SGX"]
    new_price := [.num 0]
    buffered := [.num 7]
    timestamp := "" }

/-- The sheet `startSheet` becomes after a run whose single lookup fails. -/
def failedSheet : Sheet :=
  { symbols := ["ES3"]
    exchange := ["SGX"]
    new_price := [.num (-1)]
    buffered := [.num 7]
    timestamp := "t" }

/-- The sheet `startSheet` becomes after a run whose single lookup returns
28.2. -/
def succSheet : Sheet :=
  { symbols := ["ES3"]
    exchange := ["SGX"]
    new_price := [.num (141 / 5)]
    buffered := [.num (141 / 5)]
    timestamp := "t" }

/-- The sheet `succSheet` becomes after a second run whose single lookup
fails: `new_price` records the sentinel, `buffered` keeps 28.2. -/
def secondRunSheet : Sheet :=
  { symbols := ["ES3"]
    exchange := ["SGX"]
    new_price := [.num (-1)]
    buffered := [.num (141 / 5)]
    timestamp := "u" }

/-- Network oracle where row 0 succeeds with `page28Body` and every other row
gets HTTP 500. -/
def mixedOracle : Nat → Nat → FetchResp :=
  fun i _ => if i = 0 then .page 200 page28Body else .page 500 []

/-- Two-row portfolio sheet before a run. -/
def twoRowSheet : Sheet :=
  { symbols := ["ES3", "2388"]
    exchange := ["SGX", "HKEX"]
    new_price := [.num 0, .num 0]
    buffered := [.num 7, .num 8]
    timestamp := "" }

/-- The sheet `twoRowSheet` becomes after a run under `mixedOracle`. -/
def twoRowResult : Sheet :=
  { symbols := ["ES3", "2388"]
    exchange := ["SGX", "HKEX"]
    new_price := [.num (141 / 5), .num (-1)]
    buffered := [.num (141 / 5), .num 8]
    timestamp := "t" }

/-! Helper lemmas about the loop and the buffered-column update -/

/-- Shape of a completed lookup loop: the prices list has one entry per row,
and entry k is exactly the value row `i+k`'s lookup returned. -/
theorem loopTrace_prices_spec (oracle : Nat → Nat → FetchResp) :
    ∀ (n i : Nat) (ps : List JSNum), (loopTrace oracle i n).2 = some ps →
      ps.length = n ∧
      ∀ k, k < n → ∃ x, lookupQuote (oracle (i + k)) = .val x ∧ ps.get? k = some x := by
  intro n
  induction n with
  | zero =>
    intro i ps h
    simp only [loopTrace] at h
    injection h with h
    subst h
    exact ⟨rfl, fun k hk => absurd hk (Nat.not_lt_zero k)⟩
  | succ n ih =>
    intro i ps h
    simp only [loopTrace] at h
    cases hq : lookupQuote (oracle i) with
    | crash => rw [hq] at h; cases h
    | val x =>
      rw [hq] at h
      simp only [Option.map_eq_some'] at h
      obtain ⟨tail, htail, rfl⟩ := h
      obtain ⟨hlen, hspec⟩ := ih (i + 1) tail htail
      refine ⟨by simp [hlen], ?_⟩
      intro k hk
      cases k with
      | zero => exact ⟨x, by simpa using hq, rfl⟩
      | succ k =>
        obtain ⟨y, hy, hget⟩ := hspec k (Nat.lt_of_succ_lt_succ hk)
        refine ⟨y, ?_, by simpa using hget⟩
        have : i + 1 + k = i + (k + 1) := by omega
        rwa [this] at hy

/-- Cell k of the buffered column after the conditional update, when both the
prices list and the old column have a cell k. -/
theorem applyBuffered_get (old ps : List JSNum) (k : Nat) (x o : JSNum)
    (hx : ps.get? k = some x) (ho : old.get? k = some o) :
    (applyBuffered old ps).get? k = some (if looseNeqNeg1 x then reparseCell x else o) := by
  induction ps generalizing old k with
  | nil => cases hx
  | cons p ps ih =>
    cases old with
    | nil => cases ho
    | cons o' os =>
      cases k with
      | zero =>
        injection hx with hx
        injection ho with ho
        subst hx; subst ho
        rfl
      | succ k =>
        simpa [applyBuffered] using ih os k (by simpa using hx) (by simpa using ho)

/-- Cell k of the buffered column is untouched when row k's price is the -1
sentinel. -/
theorem applyBuffered_get_of_fail (old ps : List JSNum) (k : Nat)
    (hx : ps.get? k = some (.num (-1))) :
    (applyBuffered old ps).get? k = old.get? k := by
  induction ps generalizing old k with
  | nil => cases hx
  | cons p ps ih =>
    cases old with
    | nil => simp [applyBuffered]
    | cons o' os =>
      cases k with
      | zero =>
        injection hx with hx
        subst hx
        simp [applyBuffered, looseNeqNeg1]
      | succ k =>
        simpa [applyBuffered] using ih os k (by simpa using hx)

/-- The conditional update is the identity when every price is the -1
sentinel. -/
theorem applyBuffered_of_all_fail (old ps : List JSNum)
    (h : ∀ p ∈ ps, p = .num (-1)) :
    applyBuffered old ps = old := by
  induction ps generalizing old with
  | nil => cases old <;> rfl
  | cons p ps ih =>
    cases old with
    | nil => rfl
    | cons o' os =>
      have hp : p = .num (-1) := h p (List.mem_cons_self p ps)
      subst hp
      simp only [applyBuffered, looseNeqNeg1]
      rw [ih os (fun q hq => h q (List.mem_cons_of_mem _ hq))]
      norm_num

/-! Claim theorems -/

/-- C1: for every row whose lookup returns the -1 failure sentinel, a
completed `updateMasterList` run leaves that row's buffered-column cell
exactly as before while writing -1 into that row's `new_price` cell; the
buffered value is never overwritten by a failed result. -/
theorem buffered_preserved_on_failure (now : String) (oracle : Nat → Nat → FetchResp)
    (s s' : Sheet) (i : Nat)
    (hrun : updateMasterList now oracle s = some s')
    (hi : i < s.symbols.length)
    (hfail : lookupQuote (oracle i) = .val (.num (-1))) :
    s'.buffered.get? i = s.buffered.get? i ∧ s'.new_price.get? i = some (.num (-1)) := by
  unfold updateMasterList at hrun
  cases hps : computePrices oracle s.symbols.length with
  | none => rw [hps] at hrun; cases hrun
  | some ps =>
    rw [hps] at hrun
    injection hrun with hrun
    obtain ⟨hlen, hspec⟩ := loopTrace_prices_spec oracle s.symbols.length 0 ps hps
    obtain ⟨x, hx, hget⟩ := hspec i hi
    rw [Nat.zero_add, hfail] at hx
    injection hx with hx
    subst hx
    subst hrun
    exact ⟨applyBuffered_get_of_fail s.buffered ps i hget, hget⟩

/-- C2: for every row whose lookup succeeds with a numeric value v ≥ 0, after
a completed `updateMasterList` run both that row's buffered cell and that
row's `new_price` cell equal v. -/
theorem price_written_on_success (now : String) (oracle : Nat → Nat → FetchResp)
    (s s' : Sheet) (i : Nat) (v : ℚ)
    (hrun : updateMasterList now oracle s = some s')
    (hlen : s.buffered.length = s.symbols.length)
    (hi : i < s.symbols.length)
    (hsucc : lookupQuote (oracle i) = .val (.num v))
    (hv : 0 ≤ v) :
    s'.buffered.get? i = some (.num v) ∧ s'.new_price.get? i = some (.num v) := by
  unfold updateMasterList at hrun
  cases hps : computePrices oracle s.symbols.length with
  | none => rw [hps] at hrun; cases hrun
  | some ps =>
    rw [hps] at hrun
    injection hrun with hrun
    obtain ⟨_, hspec⟩ := loopTrace_prices_spec oracle s.symbols.length 0 ps hps
    obtain ⟨x, hx, hget⟩ := hspec i hi
    rw [Nat.zero_add, hsucc] at hx
    injection hx with hx
    subst hx
    obtain ⟨o, ho⟩ : ∃ o, s.buffered.get? i = some o :=
      ⟨s.buffered.get ⟨i, hlen ▸ hi⟩, List.get?_eq_some.mpr ⟨hlen ▸ hi, rfl⟩⟩
    have hb := applyBuffered_get s.buffered ps i (.num v) o hget ho
    have hguard : looseNeqNeg1 (.num v) = true := by
      simp only [looseNeqNeg1, decide_eq_true_eq]
      intro hcon
      rw [hcon] at hv
      norm_num at hv
    rw [hguard] at hb
    subst hrun
    exact ⟨by simpa [reparseCell] using hb, hget⟩

set_option linter.unusedVariables false in
/-- C5: running `updateMasterList` twice in succession, where every row's
lookup fails with the -1 sentinel in the second run, leaves the buffered
column identical to its state after the first run: the second all-failing run
is the identity on the buffered column. -/
theorem second_failing_run_buffer_identity (now1 now2 : String)
    (or1 or2 : Nat → Nat → FetchResp) (s s1 s2 : Sheet)
    (h1 : updateMasterList now1 or1 s = some s1)
    (h2 : updateMasterList now2 or2 s1 = some s2)
    (hfail : ∀ i, i < s1.symbols.length → lookupQuote (or2 i) = .val (.num (-1))) :
    s2.buffered = s1.buffered := by
  clear h1
  unfold updateMasterList at h2
  cases hps : computePrices or2 s1.symbols.length with
  | none => rw [hps] at h2; cases h2
  | some ps =>
    rw [hps] at h2
    injection h2 with h2
    obtain ⟨hlen, hspec⟩ := loopTrace_prices_spec or2 s1.symbols.length 0 ps hps
    have hall : ∀ p ∈ ps, p = .num (-1) := by
      intro p hp
      obtain ⟨k, hk⟩ := List.get?_of_mem hp
      have hklt : k < s1.symbols.length := hlen ▸ (List.get?_eq_some.mp hk).1
      obtain ⟨x, hx, hget⟩ := hspec k hklt
      rw [Nat.zero_add, hfail k hklt] at hx
      injection hx with hx
      rw [hk] at hget
      injection hget with hget
      rw [hget, ← hx]
    subst h2
    simpa using applyBuffered_of_all_fail s1.buffered ps hall

/-- C6: a completed `updateMasterList` run writes each row's result to exactly
that row's position: the `new_price` column has one cell per input row, cell i
holds exactly what row i's lookup returned, and the buffered cell i is
determined by row i's own result and row i's prior buffered value — no
reordering and no dropping. -/
theorem row_result_alignment (now : String) (oracle : Nat → Nat → FetchResp)
    (s s' : Sheet)
    (hrun : updateMasterList now oracle s = some s')
    (hlen : s.buffered.length = s.symbols.length) :
    s'.new_price.length = s.symbols.length ∧
    ∀ i, i < s.symbols.length → ∃ x,
      lookupQuote (oracle i) = .val x ∧
      s'.new_price.get? i = some x ∧
      s'.buffered.get? i =
        (if looseNeqNeg1 x then some (reparseCell x) else s.buffered.get? i) := by
  unfold updateMasterList at hrun
  cases hps : computePrices oracle s.symbols.length with
  | none => rw [hps] at hrun; cases hrun
  | some ps =>
    rw [hps] at hrun
    injection hrun with hrun
    obtain ⟨hplen, hspec⟩ := loopTrace_prices_spec oracle s.symbols.length 0 ps hps
    subst hrun
    refine ⟨hplen, ?_⟩
    intro i hi
    obtain ⟨x, hx, hget⟩ := hspec i hi
    rw [Nat.zero_add] at hx
    refine ⟨x, hx, hget, ?_⟩
    obtain ⟨o, ho⟩ : ∃ o, s.buffered.get? i = some o :=
      ⟨s.buffered.get ⟨i, hlen ▸ hi⟩, List.get?_eq_some.mpr ⟨hlen ▸ hi, rfl⟩⟩
    have hb := applyBuffered_get s.buffered ps i x o hget ho
    cases hguard : looseNeqNeg1 x with
    | true => simpa [hguard] using hb
    | false => rw [ho]; simpa [hguard] using hb

/-- C7: `URLFromExchange` returns a URL containing the symbol followed by the
suffix from the table USA → "", SGX → ".SI", HKEX → ".HK", XSSC → ".SS", with
any other exchange code silently getting the empty USA suffix, and appends a
query parameter `Math.floor(Math.random()*1000)`, an integer in 0..999. -/
theorem url_from_exchange_spec (symbol exchange : String) (r : ℚ)
    (h0 : 0 ≤ r) (h1 : r < 1) :
    ∃ q : ℤ, 0 ≤ q ∧ q ≤ 999 ∧
      URLFromExchange symbol exchange r =
        "https://finance.yahoo.com/quote/" ++ symbol ++ exchSuffix exchange
          ++ "?p=" ++ toString q ∧
      exchSuffix "USA" = "" ∧ exchSuffix "SGX" = ".SI" ∧
      exchSuffix "HKEX" = ".HK" ∧ exchSuffix "XSSC" = ".SS" ∧
      (exchange ≠ "USA" → exchange ≠ "SGX" → exchange ≠ "HKEX" → exchange ≠ "XSSC" →
        exchSuffix exchange = "") := by
  refine ⟨cacheBuster r, ?_, ?_, rfl, by decide, by decide, by decide, by decide, ?_⟩
  · unfold cacheBuster
    exact Int.floor_nonneg.mpr (by positivity)
  · have hlt : (r * 1000 : ℚ) < 1000 := by nlinarith
    have hfl : ⌊(r * 1000 : ℚ)⌋ < 1000 := Int.floor_lt.mpr (by exact_mod_cast hlt)
    unfold cacheBuster
    omega
  · intro hu hs hh hx
    simp [exchSuffix, hu, hs, hh, hx]

/-! Helper lemmas about the event trace -/

/-- Every event a (possibly aborted) lookup loop emits is a network fetch. -/
theorem loopTrace_evs_are_fetches (oracle : Nat → Nat → FetchResp) :
    ∀ (n i : Nat), ∀ e ∈ (loopTrace oracle i n).1, ∃ j a, e = Ev.netFetch j a := by
  intro n
  induction n with
  | zero => intro i e he; simp [loopTrace] at he
  | succ n ih =>
    intro i e he
    simp only [loopTrace] at he
    cases hq : lookupQuote (oracle i) with
    | crash =>
      rw [hq] at he
      simp only [rowFetchEvs, List.mem_map] at he
      obtain ⟨a, _, rfl⟩ := he
      exact ⟨i, a, rfl⟩
    | val x =>
      rw [hq] at he
      simp only [List.mem_append, rowFetchEvs, List.mem_map] at he
      rcases he with ⟨a, _, rfl⟩ | he
      · exact ⟨i, a, rfl⟩
      · exact ih (i + 1) e he

/-- Every event the conditional buffered update emits is a buffered-column
write. -/
theorem bufferedWriteEvs_are_writes :
    ∀ (ps : List JSNum) (k : Nat), ∀ e ∈ bufferedWriteEvs k ps, ∃ j v, e = Ev.writeBuffered j v := by
  intro ps
  induction ps with
  | nil => intro k e he; simp [bufferedWriteEvs] at he
  | cons p ps ih =>
    intro k e he
    simp only [bufferedWriteEvs, List.mem_append] at he
    rcases he with he | he
    · by_cases hg : looseNeqNeg1 p = true
      · rw [if_pos hg] at he
        simp only [List.mem_singleton] at he
        exact ⟨k, reparseCell p, he⟩
      · rw [if_neg hg] at he
        simp at he
    · exact ih (k + 1) e he

/-- C10: every run's event trace starts by reading the lastrow cell and then
writing the run timestamp; everything after — the portfolio-row reads, every
network fetch and every price-column write — comes later, so the timestamp is
updated even when a lookup throws and aborts the run part-way. -/
theorem timestamp_written_before_reads_and_writes (now : String)
    (oracle : Nat → Nat → FetchResp) (s : Sheet) :
    ∃ rest, runTrace now oracle s = Ev.readLastRow :: Ev.writeTimestamp now :: rest ∧
      Ev.writeTimestamp now ∈ runTrace now oracle s ∧
      ∀ e ∈ rest, e = Ev.readRows ∨ (∃ j a, e = Ev.netFetch j a) ∨
        (∃ vs, e = Ev.writeNewPrice vs) ∨ (∃ j v, e = Ev.writeBuffered j v) := by
  simp only [runTrace]
  cases hps : (loopTrace oracle 0 s.symbols.length).2 with
  | none =>
    refine ⟨Ev.readRows :: ((loopTrace oracle 0 s.symbols.length).1 ++ []), by rfl, by simp, ?_⟩
    intro e he
    rcases List.mem_cons.mp he with rfl | he
    · exact Or.inl rfl
    · rw [List.append_nil] at he
      exact Or.inr (Or.inl (loopTrace_evs_are_fetches oracle s.symbols.length 0 e he))
  | some prices =>
    refine ⟨Ev.readRows :: ((loopTrace oracle 0 s.symbols.length).1
        ++ (Ev.writeNewPrice prices :: bufferedWriteEvs 0 prices)), by rfl, by simp, ?_⟩
    intro e he
    rcases List.mem_cons.mp he with rfl | he
    · exact Or.inl rfl
    rcases List.mem_append.mp he with he | he
    · exact Or.inr (Or.inl (loopTrace_evs_are_fetches oracle s.symbols.length 0 e he))
    rcases List.mem_cons.mp he with rfl | he
    · exact Or.inr (Or.inr (Or.inl ⟨prices, rfl⟩))
    · exact Or.inr (Or.inr (Or.inr (bufferedWriteEvs_are_writes prices 0 e he)))

/-- C3: the retry loop performs at most 3 attempts, stops immediately after
the first attempt returning HTTP 200, ends in the failure path exactly when
no performed attempt returned status 200 (a thrown attempt ends the loop and
is never a 200), and when every attempt returns status 500 it fails after
exactly 3 attempts. -/
theorem fetch_retry_contract (oracle : Nat → FetchResp) :
    (fetchPhase oracle).1 ≤ 3
    ∧ (∀ b, oracle 0 = .page 200 b → fetchPhase oracle = (1, .done 200 b))
    ∧ (∀ s0 b0 b, oracle 0 = .page s0 b0 → s0 ≠ 200 → oracle 1 = .page 200 b →
        fetchPhase oracle = (2, .done 200 b))
    ∧ (∀ s0 b0 s1 b1 b, oracle 0 = .page s0 b0 → s0 ≠ 200 → oracle 1 = .page s1 b1 →
        s1 ≠ 200 → oracle 2 = .page 200 b → fetchPhase oracle = (3, .done 200 b))
    ∧ (fetchFailed oracle = true ↔
        ∀ k, k < (fetchPhase oracle).1 → ∀ b, oracle k ≠ .page 200 b)
    ∧ ((∀ k, k < 3 → ∃ b, oracle k = .page 500 b) →
        (fetchPhase oracle).1 = 3 ∧ fetchFailed oracle = true) := by
  cases h0 : oracle 0 with
  | throws =>
    have heq : fetchPhase oracle = (1, .exn) := by simp [fetchPhase, h0]
    have hff : fetchFailed oracle = true := by simp [fetchFailed, heq]
    refine ⟨by simp [heq], ?_, ?_, ?_, ?_, ?_⟩
    · intro b hb; cases hb
    · intro s0 b0 b hb0 _ _; cases hb0
    · intro s0 b0 s1 b1 b hb0 _ _ _ _; cases hb0
    · simp only [hff, true_iff]
      intro k hk b
      replace hk : k < 1 := by rw [heq] at hk; exact hk
      interval_cases k
      simp [h0]
    · intro hall
      obtain ⟨b, hb⟩ := hall 0 (by omega)
      rw [h0] at hb; cases hb
  | page s0 b0 =>
    by_cases hs0 : s0 = 200
    · subst hs0
      have heq : fetchPhase oracle = (1, .done 200 b0) := by simp [fetchPhase, h0]
      have hff : fetchFailed oracle = false := by simp [fetchFailed, heq]
      refine ⟨by simp [heq], ?_, ?_, ?_, ?_, ?_⟩
      · intro b hb
        injection hb with _ hb
        rw [hb] at heq
        exact heq
      · intro s0' b0' b hb0 hne _
        injection hb0 with hs _
        exact absurd hs.symm hne
      · intro s0' b0' s1 b1 b hb0 hne _ _ _
        injection hb0 with hs _
        exact absurd hs.symm hne
      · rw [hff]
        simp only [Bool.false_eq_true, false_iff]
        push_neg
        exact ⟨0, by rw [heq]; exact Nat.zero_lt_one, b0, h0⟩
      · intro hall
        obtain ⟨b, hb⟩ := hall 0 (by omega)
        rw [h0] at hb
        injection hb with hs _
        cases hs
    · cases h1 : oracle 1 with
      | throws =>
        have heq : fetchPhase oracle = (2, .exn) := by simp [fetchPhase, h0, h1, hs0]
        have hff : fetchFailed oracle = true := by simp [fetchFailed, heq]
        refine ⟨by simp [heq], ?_, ?_, ?_, ?_, ?_⟩
        · intro b hb
          injection hb with hs _
          exact absurd hs hs0
        · intro s0' b0' b _ _ hb1; cases hb1
        · intro s0' b0' s1 b1 b _ _ hb1 _ _; cases hb1
        · simp only [hff, true_iff]
          intro k hk b
          replace hk : k < 2 := by rw [heq] at hk; exact hk
          interval_cases k
          · simp [h0, hs0]
          · simp [h1]
        · intro hall
          obtain ⟨b, hb⟩ := hall 1 (by omega)
          rw [h1] at hb; cases hb
      | page s1 b1 =>
        by_cases hs1 : s1 = 200
        · subst hs1
          have heq : fetchPhase oracle = (2, .done 200 b1) := by
            simp [fetchPhase, h0, h1, hs0]
          have hff : fetchFailed oracle = false := by simp [fetchFailed, heq]
          refine ⟨by simp [heq], ?_, ?_, ?_, ?_, ?_⟩
          · intro b hb
            injection hb with hs _
            exact absurd hs hs0
          · intro s0' b0' b _ _ hb1
            injection hb1 with _ hb
            rw [hb] at heq
            exact heq
          · intro s0' b0' s1' b1' b _ _ hb1 hne _
            injection hb1 with hs _
            exact absurd hs.symm hne
          · rw [hff]
            simp only [Bool.false_eq_true, false_iff]
            push_neg
            exact ⟨1, by rw [heq]; exact Nat.lt_succ_self 1, b1, h1⟩
          · intro hall
            obtain ⟨b, hb⟩ := hall 1 (by omega)
            rw [h1] at hb
            injection hb with hs _
            cases hs
        · cases h2 : oracle 2 with
          | throws =>
            have heq : fetchPhase oracle = (3, .exn) := by
              simp [fetchPhase, h0, h1, h2, hs0, hs1]
            have hff : fetchFailed oracle = true := by simp [fetchFailed, heq]
            refine ⟨by simp [heq], ?_, ?_, ?_, ?_, ?_⟩
            · intro b hb
              injection hb with hs _
              exact absurd hs hs0
            · intro s0' b0' b _ _ hb1
              injection hb1 with hs _
              exact absurd hs hs1
            · intro s0' b0' s1' b1' b _ _ _ _ hb2; cases hb2
            · simp only [hff, true_iff]
              intro k hk b
              replace hk : k < 3 := by rw [heq] at hk; exact hk
              interval_cases k
              · simp [h0, hs0]
              · simp [h1, hs1]
              · simp [h2]
            · intro hall
              obtain ⟨b, hb⟩ := hall 2 (by omega)
              rw [h2] at hb; cases hb
          | page s2 b2 =>
            have heq : fetchPhase oracle = (3, .done s2 b2) := by
              simp [fetchPhase, h0, h1, h2, hs0, hs1]
            refine ⟨by simp [heq], ?_, ?_, ?_, ?_, ?_⟩
            · intro b hb
              injection hb with hs _
              exact absurd hs hs0
            · intro s0' b0' b _ _ hb1
              injection hb1 with hs _
              exact absurd hs hs1
            · intro s0' b0' s1' b1' b _ _ _ _ hb2
              injection hb2 with hs hb
              rw [hs, hb] at heq
              exact heq
            · constructor
              · intro hf k hk b
                have hs2 : s2 ≠ 200 := by
                  simpa [fetchFailed, heq, decide_eq_true_eq] using hf
                replace hk : k < 3 := by rw [heq] at hk; exact hk
                interval_cases k
                · simp [h0, hs0]
                · simp [h1, hs1]
                · simp [h2, hs2]
              · intro hR
                have hC := hR 2 (by rw [heq]; exact Nat.lt_succ_self 2) b2
                rw [h2] at hC
                have hs2 : s2 ≠ 200 := by
                  intro hcon
                  rw [hcon] at hC
                  exact hC rfl
                simp [fetchFailed, heq, hs2]
            · intro hall
              obtain ⟨b, hb⟩ := hall 2 (by omega)
              rw [h2] at hb
              injection hb with hs _
              refine ⟨by simp [heq], ?_⟩
              simp [fetchFailed, heq, hs]

/-- C4 (claim vs code): on a status-200 page whose body regex stage 1 does
not match, and on one where stage 2 does not match, `lookupQuote` crashes
with an uncaught TypeError (the null-match dereference sits outside the
try/catch) instead of collapsing to the -1 failure sentinel the rest of the
pipeline uses. -/
theorem extraction_null_match_crashes :
    lookupQuote (fun _ => .page 200 "hello, world".toList) = .crash
    ∧ lookupQuote (fun _ => .page 200 "<span class=\"Trsdu ab</span>".toList) = .crash
    ∧ LookupOutcome.crash ≠ .val (.num (-1)) :=
  ⟨by decide, by decide, by decide⟩

/-- Cleanup step on a matched numeric text with at most one comma: removing
the first comma occurrence removes every comma. -/
theorem removeFirst_single_comma (c : Char) :
    ∀ l : List Char, l.count c ≤ 1 → removeFirst c l = l.filter (· ≠ c) := by
  intro l
  induction l with
  | nil => intro _; rfl
  | cons d l ih =>
    intro hcount
    by_cases hd : d = c
    · subst hd
      rw [List.count_cons_self] at hcount
      have h0 : l.count d = 0 := by omega
      have hnm : d ∉ l := by
        intro hmem
        exact absurd h0 (by simpa using (List.count_pos_iff.mpr hmem).ne')
      simp only [removeFirst, if_pos rfl]
      rw [List.filter_cons_of_neg (by simp)]
      refine (List.filter_eq_self.mpr ?_).symm
      intro a ha
      simp only [ne_eq, decide_eq_true_eq]
      intro hcon
      exact hnm (hcon ▸ ha)
    · rw [List.count_cons_of_ne (fun hcon => hd hcon.symm)] at hcount
      simp only [removeFirst, if_neg hd]
      rw [List.filter_cons_of_pos (by simp [hd])]
      rw [ih hcount]

/-- C8 (amended): extraction strips the angle-bracket delimiters and the
FIRST thousands-separator comma from the matched numeric text (so every
comma when there is at most one) and parses the result as a float: a body
carrying `>28.200<` in the wrapping markup yields 28.2 and one carrying
`>1,001.50<` yields 1001.5. -/
theorem extract_strips_first_comma_and_brackets :
    extract ("<html><span class=\"Trsdu abc\">28.200</span></html>".toList)
      = .val (.num (141 / 5))
    ∧ extract ("<html><span class=\"Trsdu abc\">1,001.50</span></html>".toList)
      = .val (.num (2003 / 2))
    ∧ ∀ l : List Char, l.count ',' ≤ 1 → removeFirst ',' l = l.filter (· ≠ ',') :=
  ⟨by with_unfolding_all rfl, by with_unfolding_all rfl, removeFirst_single_comma ','⟩

/-- C8 counterexample: on a body whose matched numeric text carries two
thousands-separator commas, only the first comma is stripped (JS
`String.replace` with a string pattern replaces one occurrence), and
`parseFloat` stops at the surviving comma: the result is 1234, not
1234567.8. -/
theorem comma_strip_counterexample :
    extract ("<html><span class=\"Trsdu x\">1,234,567.8</span></html>".toList)
      = .val (.num 1234)
    ∧ JSNum.num 1234 ≠ JSNum.num (12345678 / 10) :=
  ⟨by with_unfolding_all rfl, by simp only [ne_eq, JSNum.num.injEq]; norm_num⟩

/-- C9: on a status-200 page whose matched span body is the two characters
`><`, the cleaned string is empty, `parseFloat` yields NaN, `lookupQuote`
returns NaN rather than the -1 sentinel, NaN satisfies the `prices[k] != -1`
guard, and the run overwrites the previously buffered price (5 here) with
NaN. -/
theorem nan_passes_guard_and_overwrites_buffer :
    lookupQuote (fun _ => .page 200 ("<html><span class=\"Trsdu x\"></span></html>".toList))
      = .val .nan
    ∧ LookupOutcome.val .nan ≠ .val (.num (-1))
    ∧ looseNeqNeg1 .nan = true
    ∧ (updateMasterList "t"
        (fun _ _ => .page 200 ("<html><span class=\"Trsdu x\"></span></html>".toList))
        { symbols := ["2388"]
          exchange := ["HKEX"]
          new_price := [.num 0]
          buffered := [.num 5]
          timestamp := "" }).map Sheet.buffered = some [JSNum.nan] :=
  ⟨by with_unfolding_all rfl, by decide, rfl, by with_unfolding_all rfl⟩

/-! Witnesses: the hypothesis-bearing theorems instantiated at closed
inputs -/

/-- Witness for C1: one-row sheet, every attempt gets HTTP 500, the lookup
returns the -1 sentinel, the buffered cell keeps its value 7 and the
`new_price` cell records -1. -/
theorem buffered_preserved_on_failure_witness :
    updateMasterList "t" failOracle startSheet = some failedSheet
    ∧ 0 < startSheet.symbols.length
    ∧ lookupQuote (failOracle 0) = .val (.num (-1))
    ∧ (failedSheet.buffered.get? 0 = startSheet.buffered.get? 0
        ∧ failedSheet.new_price.get? 0 = some (.num (-1))) :=
  ⟨by with_unfolding_all rfl, by decide, by with_unfolding_all rfl,
    buffered_preserved_on_failure "t" failOracle startSheet failedSheet 0
      (by with_unfolding_all rfl) (by decide) (by with_unfolding_all rfl)⟩

/-- Witness for C2: one-row sheet, the lookup succeeds with 28.2 ≥ 0, and
both output cells record 28.2. -/
theorem price_written_on_success_witness :
    updateMasterList "t" succOracle startSheet = some succSheet
    ∧ startSheet.buffered.length = startSheet.symbols.length
    ∧ 0 < startSheet.symbols.length
    ∧ lookupQuote (succOracle 0) = .val (.num (141 / 5))
    ∧ (0 : ℚ) ≤ 141 / 5
    ∧ (succSheet.buffered.get? 0 = some (.num (141 / 5))
        ∧ succSheet.new_price.get? 0 = some (.num (141 / 5))) :=
  ⟨by with_unfolding_all rfl, by decide, by decide, by with_unfolding_all rfl, by norm_num,
    price_written_on_success "t" succOracle startSheet succSheet 0 (141 / 5)
      (by with_unfolding_all rfl) (by decide) (by decide) (by with_unfolding_all rfl)
      (by norm_num)⟩

/-- Witness for C5: a first successful run buffers 28.2; a second run whose
single fetch raises a transport exception leaves the buffered column
untouched. -/
theorem second_failing_run_buffer_identity_witness :
    updateMasterList "t" succOracle startSheet = some succSheet
    ∧ updateMasterList "u" throwOracle succSheet = some secondRunSheet
    ∧ (∀ i, i < succSheet.symbols.length → lookupQuote (throwOracle i) = .val (.num (-1)))
    ∧ secondRunSheet.buffered = succSheet.buffered :=
  ⟨by with_unfolding_all rfl, by with_unfolding_all rfl,
    by intro i hi; replace hi : i < 1 := hi; interval_cases i; with_unfolding_all rfl,
    second_failing_run_buffer_identity "t" "u" succOracle throwOracle startSheet succSheet
      secondRunSheet (by with_unfolding_all rfl) (by with_unfolding_all rfl)
      (by intro i hi; replace hi : i < 1 := hi; interval_cases i; with_unfolding_all rfl)⟩

/-- Witness for C6: two rows, the first succeeding with 28.2 and the second
failing, land in exactly their own cells. -/
theorem row_result_alignment_witness :
    updateMasterList "t" mixedOracle twoRowSheet = some twoRowResult
    ∧ twoRowSheet.buffered.length = twoRowSheet.symbols.length
    ∧ (twoRowResult.new_price.length = twoRowSheet.symbols.length
        ∧ ∀ i, i < twoRowSheet.symbols.length → ∃ x,
            lookupQuote (mixedOracle i) = .val x ∧
            twoRowResult.new_price.get? i = some x ∧
            twoRowResult.buffered.get? i =
              (if looseNeqNeg1 x then some (reparseCell x) else twoRowSheet.buffered.get? i)) :=
  ⟨by with_unfolding_all rfl, by decide,
    row_result_alignment "t" mixedOracle twoRowSheet twoRowResult
      (by with_unfolding_all rfl) (by decide)⟩

/-- Witness for C7 at symbol "ES3", exchange "SGX" and random draw 1/2: the
URL is the quote path for `ES3.SI` with query parameter 500. -/
theorem url_from_exchange_spec_witness :
    (0 : ℚ) ≤ 1 / 2 ∧ (1 / 2 : ℚ) < 1
    ∧ ∃ q : ℤ, 0 ≤ q ∧ q ≤ 999 ∧
        URLFromExchange "ES3" "SGX" (1 / 2) =
          "https://finance.yahoo.com/quote/" ++ "ES3" ++ exchSuffix "SGX"
            ++ "?p=" ++ toString q ∧
        exchSuffix "USA" = "" ∧ exchSuffix "SGX" = ".SI" ∧
        exchSuffix "HKEX" = ".HK" ∧ exchSuffix "XSSC" = ".SS" ∧
        ("SGX" ≠ "USA" → "SGX" ≠ "SGX" → "SGX" ≠ "HKEX" → "SGX" ≠ "XSSC" →
          exchSuffix "SGX" = "") :=
  ⟨by norm_num, by norm_num,
    url_from_exchange_spec "ES3" "SGX" (1 / 2) (by norm_num) (by norm_num)⟩

/-- Witness for C3 at the oracle answering 500 on every attempt: failure
after exactly 3 attempts. -/
theorem fetch_retry_contract_witness :
    (fetchPhase (fun _ => FetchResp.page 500 [])).1 = 3
    ∧ fetchFailed (fun _ => FetchResp.page 500 []) = true :=
  (fetch_retry_contract (fun _ => FetchResp.page 500 [])).2.2.2.2.2
    (fun _ _ => ⟨[], rfl⟩)

/-- Witness for C8's comma clause at a concrete one-comma list, together with
the two concrete extractions restated through the theorem. -/
theorem extract_strips_first_comma_and_brackets_witness :
    List.count ',' [',', '5'] ≤ 1
    ∧ removeFirst ',' [',', '5'] = List.filter (· ≠ ',') [',', '5'] :=
  ⟨by decide, (extract_strips_first_comma_and_brackets.2.2 [',', '5'] (by decide))⟩

/-- Witness for C10 at a concrete run whose single lookup fails. -/
theorem timestamp_written_before_reads_and_writes_witness :
    ∃ rest, runTrace "t" failOracle startSheet
        = Ev.readLastRow :: Ev.writeTimestamp "t" :: rest ∧
      Ev.writeTimestamp "t" ∈ runTrace "t" failOracle startSheet ∧
      ∀ e ∈ rest, e = Ev.readRows ∨ (∃ j a, e = Ev.netFetch j a) ∨
        (∃ vs, e = Ev.writeNewPrice vs) ∨ (∃ j v, e = Ev.writeBuffered j v) :=
  timestamp_written_before_reads_and_writes "t" failOracle startSheet

end StockPriceUpdater
